import Mathlib

/-!
Verification development for a minimal Ethereum ABI call encoder
(`transaction` in src/lib.rs together with the `EthereumTypes` value model).

The embedding is a direct functional rendering of the Rust source:
machine bytes and 64-bit lanes are `Nat` with explicit masking by
2 ^ 64 - 1 or 256 where overflow matters; the parsed `serde_json::Value`
document is an inductive `Json` type whose indexing operators reproduce
the serde_json semantics (indexing a non-array, an out-of-range position
or an absent key yields `Json.null`); a Rust `Result` is an explicit sum,
and a Rust panic (an `assert!` failure or an `unwrap` of `None`) is a
distinguished outcome of its own, so that typed errors and process
aborts stay distinguishable.
-/

namespace ZgenAbi

/-! ## Keccak-256 (the hash used by `sha3::Keccak256`)

Lanes are 64-bit words modelled as `Nat` kept below `2 ^ 64`; the state is
the flat 25-lane list, lane `(x, y)` at index `x + 5 * y`.
-/

/-- All-ones 64-bit mask. -/
def mask64 : Nat := 2 ^ 64 - 1

/-- Rotate a 64-bit lane left by `n` bits (for `0 ≤ n < 64`). -/
def rotl64 (x n : Nat) : Nat :=
  ((x <<< n) ||| (x >>> (64 - n))) &&& mask64

/-- Lane read from the flat 5x5 state, `(x, y)` at index `x + 5 * y`. -/
def lane (s : List Nat) (x y : Nat) : Nat := s.getD (x + 5 * y) 0

/-- The theta step of the Keccak-f round function. -/
def theta (s : List Nat) : List Nat :=
  let c := (List.range 5).map fun x =>
    lane s x 0 ^^^ lane s x 1 ^^^ lane s x 2 ^^^ lane s x 3 ^^^ lane s x 4
  let d := (List.range 5).map fun x =>
    c.getD ((x + 4) % 5) 0 ^^^ rotl64 (c.getD ((x + 1) % 5) 0) 1
  (List.range 25).map fun i => s.getD i 0 ^^^ d.getD (i % 5) 0

/-- One entry of the rho walk: after step `t` at lane `(x, y)`, the next
lane is `(y, (2x + 3y) % 5)` and the offset laid down is the triangular
number `(t + 1)(t + 2) / 2` reduced mod 64. -/
def rhoStep (st : (Nat × Nat) × List (Nat × Nat)) (t : Nat) :
    (Nat × Nat) × List (Nat × Nat) :=
  let x := st.1.1
  let y := st.1.2
  ((y, (2 * x + 3 * y) % 5), (x + 5 * y, (t + 1) * (t + 2) / 2 % 64) :: st.2)

/-- The rho offsets as an association list over flattened lane indices,
generated by walking 24 steps from lane `(1, 0)`; lane `(0, 0)` is absent
and keeps offset 0. -/
def rhoTable : List (Nat × Nat) :=
  ((List.range 24).foldl rhoStep ((1, 0), [])).2

/-- Rotation offsets `r[x][y]` of the rho step, flattened at `x + 5 * y`. -/
def rhoOffsets : List Nat :=
  (List.range 25).map fun i => (rhoTable.lookup i).getD 0

/-- The combined rho and pi steps: the target lane `(tx, ty)` receives the
source lane `(x, y)` with `y = tx` and `x = (tx + 3 * ty) % 5`, rotated by
its rho offset. -/
def rhoPi (s : List Nat) : List Nat :=
  (List.range 25).map fun i =>
    let tx := i % 5
    let ty := i / 5
    let x := (tx + 3 * ty) % 5
    let y := tx
    rotl64 (lane s x y) (rhoOffsets.getD (x + 5 * y) 0)

/-- The chi step of the Keccak-f round function. -/
def chi (b : List Nat) : List Nat :=
  (List.range 25).map fun i =>
    let x := i % 5
    let y := i / 5
    b.getD i 0 ^^^ ((b.getD ((x + 1) % 5 + 5 * y) 0 ^^^ mask64) &&& b.getD ((x + 2) % 5 + 5 * y) 0)

/-- The iota step: xor the round constant into lane 0. -/
def iota (rc : Nat) (s : List Nat) : List Nat :=
  match s with
  | [] => []
  | s0 :: rest => (s0 ^^^ rc) :: rest

/-- One step of the degree-8 LFSR (polynomial x^8 + x^6 + x^5 + x^4 + 1)
generating the round-constant bit sequence. -/
def lfsrStep (r : Nat) : Nat :=
  if r &&& 0x80 ≠ 0 then ((r <<< 1) ^^^ 0x71) &&& 0xFF else r <<< 1

/-- The LFSR state after `t` steps from the initial state 1. -/
def lfsrState : Nat → Nat
  | 0 => 1
  | t + 1 => lfsrStep (lfsrState t)

/-- The t-th round-constant bit. -/
def rcBit (t : Nat) : Nat := lfsrState t &&& 1

/-- The round constant of round `i`: bit `rc(7i + j)` placed at lane bit
position `2 ^ j - 1`, for `j` from 0 to 6. -/
def roundConstant (i : Nat) : Nat :=
  (List.range 7).foldl (fun acc j => acc ||| (rcBit (7 * i + j) <<< (2 ^ j - 1))) 0

/-- The 24 round constants of Keccak-f[1600]. -/
def roundConstants : List Nat :=
  (List.range 24).map roundConstant

/-- The full Keccak-f[1600] permutation: 24 rounds of theta, rho-pi, chi, iota. -/
def keccakF (s : List Nat) : List Nat :=
  roundConstants.foldl (fun st rc => iota rc (chi (rhoPi (theta st)))) s

/-- A 64-bit lane assembled little-endian from 8 bytes of `bs` starting at `off`. -/
def laneFromBytes (bs : List Nat) (off : Nat) : Nat :=
  bs.getD off 0 |||
  (bs.getD (off + 1) 0 <<< 8) |||
  (bs.getD (off + 2) 0 <<< 16) |||
  (bs.getD (off + 3) 0 <<< 24) |||
  (bs.getD (off + 4) 0 <<< 32) |||
  (bs.getD (off + 5) 0 <<< 40) |||
  (bs.getD (off + 6) 0 <<< 48) |||
  (bs.getD (off + 7) 0 <<< 56)

/-- Xor one 136-byte rate block into the first 17 lanes of the state. -/
def xorBlock (s : List Nat) (block : List Nat) : List Nat :=
  (List.range 25).map fun i =>
    if i < 17 then s.getD i 0 ^^^ laneFromBytes block (8 * i) else s.getD i 0

/-- Absorb `blocks` rate blocks of `bytes` into the sponge state. -/
def absorbBlocks : Nat → List Nat → List Nat → List Nat
  | 0, st, _ => st
  | blocks + 1, st, bytes =>
      absorbBlocks blocks (keccakF (xorBlock st (bytes.take 136))) (bytes.drop 136)

/-- Keccak `pad10*1` padding to the 136-byte rate, with domain byte `0x01`
(original Keccak, as used by `sha3::Keccak256`). -/
def keccakPad (msg : List Nat) : List Nat :=
  let padlen := 136 - msg.length % 136
  if padlen = 1 then msg ++ [0x81]
  else msg ++ [0x01] ++ List.replicate (padlen - 2) 0 ++ [0x80]

/-- The 8 bytes of a 64-bit lane, little-endian. -/
def laneToBytes (x : Nat) : List Nat :=
  [x &&& 0xFF, (x >>> 8) &&& 0xFF, (x >>> 16) &&& 0xFF, (x >>> 24) &&& 0xFF,
   (x >>> 32) &&& 0xFF, (x >>> 40) &&& 0xFF, (x >>> 48) &&& 0xFF, (x >>> 56) &&& 0xFF]

/-- Keccak-256 of a byte sequence: pad, absorb, and squeeze the first
32 bytes (the first four lanes, little-endian). -/
def keccak256 (msg : List Nat) : List Nat :=
  let padded := keccakPad msg
  let st := absorbBlocks (padded.length / 136) (List.replicate 25 0) padded
  (((List.range 4).map fun j => laneToBytes (st.getD j 0))).flatten

/-- UTF-8 encoding of a single character (RFC 3629), bytes as `Nat`. -/
def utf8EncodeChar (c : Char) : List Nat :=
  let n := c.toNat
  if n < 0x80 then [n]
  else if n < 0x800 then
    [0xC0 ||| (n >>> 6), 0x80 ||| (n &&& 0x3F)]
  else if n < 0x10000 then
    [0xE0 ||| (n >>> 12), 0x80 ||| ((n >>> 6) &&& 0x3F), 0x80 ||| (n &&& 0x3F)]
  else
    [0xF0 ||| (n >>> 18), 0x80 ||| ((n >>> 12) &&& 0x3F),
     0x80 ||| ((n >>> 6) &&& 0x3F), 0x80 ||| (n &&& 0x3F)]

/-- The UTF-8 bytes of a string, the payload `keccak.update(signature)` hashes. -/
def strBytes (s : String) : List Nat :=
  (s.data.map utf8EncodeChar).flatten

/-! ## Value model (`EthereumTypes` in src/lib.rs and src/types.rs)

The Rust arrays `[u8; 20]` and `[u8; 32]` become byte lists; the fixed
widths of the source type are the well-formedness predicate `wfValue`,
which every constructor of the source establishes. -/

/-- The supported argument types; the payload is the raw byte list of the
source arrays (`[u8; 20]` for `Address`, `[u8; 32]` for `U256`). -/
inductive EthereumTypes where
  | Address (val : List Nat)
  | U256 (val : List Nat)
deriving DecidableEq

/-- Width invariant of the source arrays: an `Address` holds exactly 20
bytes and a `U256` exactly 32. -/
def wfValue : EthereumTypes → Prop
  | .Address val => val.length = 20
  | .U256 val => val.length = 32

namespace EthereumTypes

/-- The canonical type keyword (`name_as_str` in the source). -/
def name_as_str : EthereumTypes → String
  | .Address _ => "address"
  | .U256 _ => "uint256"

/-- The 32-byte word of a value (`value_as_u256` in the source): an address
is written into a 32-byte zero array at positions 12..32, a `U256` is
returned unchanged. -/
def value_as_u256 : EthereumTypes → List Nat
  | .Address val => (List.range 32).map fun i => if i < 12 then 0 else val.getD (i - 12) 0
  | .U256 val => val

end EthereumTypes

/-- Outcome of a constructor guarded by a Rust `assert!`: either the value,
or a process abort (the assertion failure), which is not a typed error. -/
inductive FromBytesResult where
  | ok (value : EthereumTypes)
  | panicked
deriving DecidableEq

/-- `EthereumTypes::address_from_bytes`: asserts `bytes.len() <= 20`
(aborting the process otherwise), then writes the bytes into a 20-byte
zero array starting at offset `20 - bytes.len()`. -/
def address_from_bytes (bytes : List Nat) : FromBytesResult :=
  if bytes.length ≤ 20 then
    .ok (.Address ((List.range 20).map fun i =>
      if i < 20 - bytes.length then 0 else bytes.getD (i - (20 - bytes.length)) 0))
  else
    .panicked

/-- `EthereumTypes::u256_from_bytes`: asserts `bytes.len() <= 32`
(aborting the process otherwise), then writes the bytes into a 32-byte
zero array starting at offset `32 - bytes.len()`. -/
def u256_from_bytes (bytes : List Nat) : FromBytesResult :=
  if bytes.length ≤ 32 then
    .ok (.U256 ((List.range 32).map fun i =>
      if i < 32 - bytes.length then 0 else bytes.getD (i - (32 - bytes.length)) 0))
  else
    .panicked

/-! ## The parsed interface description (`serde_json::Value`) -/

/-- A parsed JSON document. Object fields are an association list with the
keys unique (serde_json maps cannot hold duplicate keys). -/
inductive Json where
  | null
  | bool (b : Bool)
  | num (n : Int)
  | str (s : String)
  | arr (elems : List Json)
  | obj (fields : List (String × Json))

/-- Structural equality with `Value::Null` (the loop guard
`functions[i] != serde_json::Value::Null`): true exactly for `null`. -/
def Json.isNull : Json → Bool
  | .null => true
  | _ => false

/-- serde_json `value[i]` on a shared reference: the element when `value`
is an array and `i` is in range, `Null` otherwise. -/
def jIndex : Json → Nat → Json
  | .arr xs, i => xs.getD i .null
  | _, _ => .null

/-- serde_json `value["key"]` on a shared reference: the field when
`value` is an object holding the key, `Null` otherwise. -/
def jKey : Json → String → Json
  | .obj fields, k => (fields.lookup k).getD .null
  | _, _ => .null

/-- serde_json `Value::as_str`. -/
def asStr : Json → Option String
  | .str s => some s
  | _ => none

/-- serde_json `Value == &str` (`PartialEq<str>` for `Value`): true exactly
when the value is that string. -/
def jsonEqStr (v : Json) (s : String) : Bool :=
  match v with
  | .str t => t == s
  | _ => false

/-! ## Call encoder (`transaction` in src/lib.rs)

The source opens and parses a JSON file first; here the already-parsed
document is the argument, file and parse errors being outside the encoder
proper. The remaining pipeline is embedded stage by stage. -/

/-- The distinct failure sites of `transaction`, one constructor per
`Err(format!(...))` expression of the source, carrying the formatted data:
the missing function name; the expected and found type names of a
mismatch; the JSON `name` value printed by the malformed-description
message. -/
inductive EncodeError where
  | functionNotFound (name : String)
  | typeMismatch (expected found : String)
  | malformedDescription (name : Json)

/-- Outcome of the encoder: the calldata bytes, a typed error returned to
the caller, or a process abort (a Rust panic). -/
inductive RResult where
  | ok (bytes : List Nat)
  | err (error : EncodeError)
  | panicked

/-- The lookup loop of `transaction`: scan `functions[0]`, `functions[1]`,
... until the indexed value is `Null` (which an out-of-range index
yields); report the first element whose `"name"` field equals the
requested name. -/
def findEntry : List Json → String → Option Json
  | [], _ => none
  | e :: rest, fname =>
      if e.isNull then none
      else if jsonEqStr (jKey e "name") fname then some e
      else findEntry rest fname

/-- The lookup applied to the whole parsed document: indexing a non-array
document yields `Null` at position 0, so the loop finds nothing. -/
def findFunction : Json → String → Option Json
  | .arr xs, fname => findEntry xs fname
  | _, _ => none

/-- The declared parameter type value at argument position `j`: the
source expression `functions[i]["inputs"][j]["type"]`. -/
def declaredType (entry : Json) (j : Nat) : Json :=
  jKey (jIndex (jKey entry "inputs") j) "type"

/-- The validation loop of `transaction`: for the argument at position
`j`, read `functions[i]["inputs"][j]["type"]`; when it is not a string,
fail with the malformed-description error (formatting the entry's `name`
value); when it is a string different from the argument's canonical name,
fail with the mismatch error; otherwise collect it and continue. -/
def validateArgs (entry : Json) : Nat → List EthereumTypes → Except EncodeError (List String)
  | _, [] => .ok []
  | j, arg :: rest =>
      match asStr (declaredType entry j) with
      | some s =>
          if s ≠ arg.name_as_str then .error (.typeMismatch s arg.name_as_str)
          else
            match validateArgs entry (j + 1) rest with
            | .error e => .error e
            | .ok tl => .ok (s :: tl)
      | none => .error (.malformedDescription (jKey entry "name"))

/-- The signature construction of `transaction`: start from
`name ++ "("`, append each collected input followed by a comma, pop the
last character (meant to drop the trailing comma), and push the closing
parenthesis. -/
def buildSignature (fname : String) (inputs : List String) : String :=
  let s := inputs.foldl (fun acc inp => acc ++ inp ++ ",") (fname ++ "(")
  (s.dropRight 1).push ')'

/-- The encoder pipeline of `transaction` on an already-parsed document:
lookup, validation, signature construction (where the matched entry's
`"name"` is `unwrap`-ped as a string — `none` there would be a panic),
Keccak-256 of the signature truncated to 4 selector bytes, and the
32-byte words of the arguments appended in order. -/
def transaction (functions : Json) (function_name : String)
    (arguments : List EthereumTypes) : RResult :=
  match findFunction functions function_name with
  | none => .err (.functionNotFound function_name)
  | some entry =>
      match validateArgs entry 0 arguments with
      | .error e => .err e
      | .ok inputs =>
          match asStr (jKey entry "name") with
          | none => .panicked
          | some n =>
              let signature := buildSignature n inputs
              let selector := (keccak256 (strBytes signature)).take 4
              .ok (selector ++ (arguments.map EthereumTypes.value_as_u256).flatten)

/-- The 32-byte word of a constructed value, when construction did not
abort: `to_word` after `from_bytes`, as the composed source calls
`value_as_u256(address_from_bytes(b))` / `value_as_u256(u256_from_bytes(b))`. -/
def FromBytesResult.toWord : FromBytesResult → Option (List Nat)
  | .ok v => some v.value_as_u256
  | .panicked => none

/-- The argument at position `k` of the supplied list; the default is
irrelevant, every use carries a bound keeping `k` in range. -/
def argAt (args : List EthereumTypes) (k : Nat) : EthereumTypes :=
  args.getD k (.U256 [])

/-! ## Concrete inputs used by the scenarios -/

/-- The 20 address bytes 0x30E7d7FfF85C8d0E775140b1aD93C230D5595207. -/
def transferAddressBytes : List Nat :=
  [0x30, 0xE7, 0xd7, 0xFf, 0xF8, 0x5C, 0x8d, 0x0E, 0x77, 0x51,
   0x40, 0xb1, 0xaD, 0x93, 0xC2, 0x30, 0xD5, 0x59, 0x52, 0x07]

/-- The first argument of the transfer scenario. -/
def transferAddress : EthereumTypes := .Address transferAddressBytes

/-- The second argument of the transfer scenario: 20000000000 as a
32-byte big-endian unsigned integer (0x4A817C800). -/
def transferAmount : EthereumTypes :=
  .U256 (List.replicate 24 0 ++ [0x00, 0x00, 0x00, 0x04, 0xa8, 0x17, 0xc8, 0x00])

/-- The description entry `transfer(address,uint256)`. -/
def transferEntry : Json :=
  .obj [("name", .str "transfer"),
        ("inputs", .arr [.obj [("type", .str "address")],
                         .obj [("type", .str "uint256")]])]

/-- A description containing the `transfer(address,uint256)` entry. -/
def transferDescription : Json := .arr [transferEntry]

/-- The expected transfer calldata:
0xa9059cbb00000000000000000000000030e7d7fff85c8d0e775140b1ad93c230
d559520700000000000000000000000000000000000000000000000000000004a8
17c800. -/
def transferCalldata : List Nat :=
  [0xa9, 0x05, 0x9c, 0xbb,
   0x00, 0x00, 0x00, 0x00, 0x00, 0x00, 0x00, 0x00, 0x00, 0x00, 0x00, 0x00,
   0x30, 0xe7, 0xd7, 0xff, 0xf8, 0x5c, 0x8d, 0x0e, 0x77, 0x51, 0x40, 0xb1,
   0xad, 0x93, 0xc2, 0x30, 0xd5, 0x59, 0x52, 0x07,
   0x00, 0x00, 0x00, 0x00, 0x00, 0x00, 0x00, 0x00, 0x00, 0x00, 0x00, 0x00,
   0x00, 0x00, 0x00, 0x00, 0x00, 0x00, 0x00, 0x00, 0x00, 0x00, 0x00, 0x00,
   0x00, 0x00, 0x00, 0x04, 0xa8, 0x17, 0xc8, 0x00]

/-- A description whose only entry declares one `address` parameter. -/
def oneParamEntry : Json :=
  .obj [("name", .str "f"), ("inputs", .arr [.obj [("type", .str "address")]])]

/-- The description holding `oneParamEntry` alone. -/
def oneParamDescription : Json := .arr [oneParamEntry]

/-- A description whose only entry is a zero-parameter function `f`. -/
def zeroArgDescription : Json := .arr [.obj [("name", .str "f")]]

/-- An entry declaring `address, address`, used to exhibit a mismatch at
position 1 when the second supplied argument is a `U256`. -/
def twoAddrEntry : Json :=
  .obj [("name", .str "g"),
        ("inputs", .arr [.obj [("type", .str "address")],
                         .obj [("type", .str "address")]])]

/-- The description holding `twoAddrEntry` alone. -/
def twoAddrDescription : Json := .arr [twoAddrEntry]

/-- An entry whose second declared parameter has a numeric `type` field,
a structurally invalid description. -/
def badTypeEntry : Json :=
  .obj [("name", .str "h"),
        ("inputs", .arr [.obj [("type", .str "address")],
                         .obj [("type", .num 7)]])]

/-- The description holding `badTypeEntry` alone. -/
def badTypeDescription : Json := .arr [badTypeEntry]

/-- Two entries sharing the name `g`; lookup must use the first. -/
def duplicateEntries : List Json :=
  [.obj [("name", .str "g"), ("inputs", .arr [])],
   .obj [("name", .str "g")]]

/-! ## Helper lemmas -/

/-- The write loop of the constructors: filling a `w`-byte zero array from
offset `w - b.length` is zero-padding `b` on the left to width `w`. -/
theorem range_map_pad (w : Nat) (b : List Nat) (h : b.length ≤ w) :
    ((List.range w).map fun i => if i < w - b.length then 0 else b.getD (i - (w - b.length)) 0)
      = List.replicate (w - b.length) 0 ++ b := by
  apply List.ext_getElem
  · simp
    omega
  · intro i h1 h2
    simp only [List.length_map, List.length_range] at h1
    simp only [List.getElem_map, List.getElem_range]
    by_cases hi : i < w - b.length
    · rw [if_pos hi, List.getElem_append_left (by simpa using hi)]
      simp
    · rw [if_neg hi, List.getElem_append_right (by simpa using hi)]
      simp only [List.length_replicate]
      exact List.getD_eq_getElem b 0 (by omega)

/-- The word of an address built from `n ≤ 20` padded bytes is the same
bytes padded to 32: the 12 zero bytes of the word and the `20 - n` zero
bytes of the address fuse into `32 - n` leading zeros. -/
theorem address_word_pad (b : List Nat) (h : b.length ≤ 20) :
    (EthereumTypes.Address (List.replicate (20 - b.length) 0 ++ b)).value_as_u256
      = List.replicate (32 - b.length) 0 ++ b := by
  unfold EthereumTypes.value_as_u256
  apply List.ext_getElem
  · simp
    omega
  · intro i h1 h2
    simp only [List.length_map, List.length_range] at h1
    simp only [List.getElem_map, List.getElem_range]
    by_cases hi : i < 12
    · rw [if_pos hi, List.getElem_append_left (by simp ; omega)]
      simp
    · rw [if_neg hi,
        List.getD_eq_getElem (List.replicate (20 - b.length) 0 ++ b) 0 (by simp ; omega)]
      by_cases hj : i - 12 < 20 - b.length
      · rw [List.getElem_append_left (by simpa using hj),
          List.getElem_append_left (by simp ; omega)]
        simp
      · rw [List.getElem_append_right (by simp ; omega),
          List.getElem_append_right (by simp ; omega)]
        simp only [List.length_replicate]
        congr 1
        omega

/-! ## C4 and C5: the `from_bytes` constructors -/

/-- Counterexample to C4: a 21-byte input to `address_from_bytes` does not
yield a typed error, it trips the `assert!` and aborts the process. -/
theorem address_from_bytes_oversized_cex :
    address_from_bytes (List.replicate 21 0) = FromBytesResult.panicked := rfl

/-- C4 (amended): for every byte slice strictly longer than the fixed
width (20 for `Address`, 32 for `U256`), the constructor fails, but via
the `assert!` — a process abort, not a typed error value. -/
theorem from_bytes_oversized_panics (bytes : List Nat) :
    (20 < bytes.length → address_from_bytes bytes = FromBytesResult.panicked) ∧
    (32 < bytes.length → u256_from_bytes bytes = FromBytesResult.panicked) := by
  refine ⟨fun h => ?_, fun h => ?_⟩
  · unfold address_from_bytes
    rw [if_neg (by omega)]
  · unfold u256_from_bytes
    rw [if_neg (by omega)]

/-- Witness for the amended C4 at a concrete 33-byte input. -/
theorem from_bytes_oversized_panics_witness :
    address_from_bytes (List.replicate 33 0) = FromBytesResult.panicked ∧
    u256_from_bytes (List.replicate 33 0) = FromBytesResult.panicked :=
  ⟨(from_bytes_oversized_panics (List.replicate 33 0)).1 (by simp),
   (from_bytes_oversized_panics (List.replicate 33 0)).2 (by simp)⟩

/-- C5: for both variants and any byte slice no longer than the fixed
width, the word of the constructed value is the slice zero-padded on the
left to 32 bytes. -/
theorem from_bytes_to_word_pads (b : List Nat) :
    (b.length ≤ 20 →
      (address_from_bytes b).toWord = some (List.replicate (32 - b.length) 0 ++ b)) ∧
    (b.length ≤ 32 →
      (u256_from_bytes b).toWord = some (List.replicate (32 - b.length) 0 ++ b)) := by
  refine ⟨fun h => ?_, fun h => ?_⟩
  · unfold address_from_bytes
    rw [if_pos h, range_map_pad 20 b h]
    exact congrArg some (address_word_pad b h)
  · unfold u256_from_bytes
    rw [if_pos h, range_map_pad 32 b h]
    rfl

/-- Witness for C5 at the concrete 3-byte input `[1, 2, 3]`. -/
theorem from_bytes_to_word_pads_witness :
    (address_from_bytes [1, 2, 3]).toWord = some (List.replicate 29 0 ++ [1, 2, 3]) ∧
    (u256_from_bytes [1, 2, 3]).toWord = some (List.replicate 29 0 ++ [1, 2, 3]) :=
  ⟨(from_bytes_to_word_pads [1, 2, 3]).1 (by decide),
   (from_bytes_to_word_pads [1, 2, 3]).2 (by decide)⟩

/-! ## Behaviour of the validation loop -/

/-- If every position before `j` validates and position `j` carries a
declared string type different from the argument's canonical name, the
loop stops there with that mismatch error. -/
theorem validateArgs_mismatch (entry : Json) :
    ∀ (args : List EthereumTypes) (j0 j : Nat) (s : String),
      j < args.length →
      (∀ k, k < j → asStr (declaredType entry (j0 + k)) = some (argAt args k).name_as_str) →
      asStr (declaredType entry (j0 + j)) = some s →
      s ≠ (argAt args j).name_as_str →
      validateArgs entry j0 args = .error (.typeMismatch s (argAt args j).name_as_str) := by
  intro args
  induction args with
  | nil =>
      intro j0 j s hj
      exact absurd hj (by simp)
  | cons a rest ih =>
      intro j0 j s hj hpre hs hne
      cases j with
      | zero =>
          rw [Nat.add_zero] at hs
          simp only [argAt, List.getD_cons_zero] at hne ⊢
          simp only [validateArgs, hs]
          rw [if_pos hne]
      | succ jj =>
          have h0 := hpre 0 (Nat.succ_pos jj)
          rw [Nat.add_zero] at h0
          have hrec := ih (j0 + 1) jj s (by simpa using hj)
            (fun k hk => by
              have := hpre (k + 1) (by omega)
              simpa [Nat.add_assoc, Nat.add_comm 1 k] using this)
            (by simpa [Nat.add_assoc, Nat.add_comm 1 jj] using hs)
            (by simpa [argAt] using hne)
          simp only [validateArgs, h0]
          rw [if_neg (by simp [argAt])]
          rw [hrec]
          simp [argAt]

/-- If every position before `j` validates and the declared type at
position `j` is missing or not a string, the loop stops there with the
malformed-description error. -/
theorem validateArgs_malformed (entry : Json) :
    ∀ (args : List EthereumTypes) (j0 j : Nat),
      j < args.length →
      (∀ k, k < j → asStr (declaredType entry (j0 + k)) = some (argAt args k).name_as_str) →
      asStr (declaredType entry (j0 + j)) = none →
      validateArgs entry j0 args = .error (.malformedDescription (jKey entry "name")) := by
  intro args
  induction args with
  | nil =>
      intro j0 j hj
      exact absurd hj (by simp)
  | cons a rest ih =>
      intro j0 j hj hpre hs
      cases j with
      | zero =>
          rw [Nat.add_zero] at hs
          simp only [validateArgs, hs]
      | succ jj =>
          have h0 := hpre 0 (Nat.succ_pos jj)
          rw [Nat.add_zero] at h0
          have hrec := ih (j0 + 1) jj (by simpa using hj)
            (fun k hk => by
              have := hpre (k + 1) (by omega)
              simpa [Nat.add_assoc, Nat.add_comm 1 k] using this)
            (by simpa [Nat.add_assoc, Nat.add_comm 1 jj] using hs)
          simp only [validateArgs, h0]
          rw [if_neg (by simp [argAt])]
          rw [hrec]

/-! ## C8 and C9: first validation failure -/

/-- C8: when the first failing position `j` carries a declared string
type `s` different from the argument's canonical name, the call fails
with the mismatch error reporting `s` as expected and the canonical name
as found; nothing after `j` matters (no hypothesis constrains it). -/
theorem encode_type_mismatch_first (d : Json) (fn : String) (args : List EthereumTypes)
    (entry : Json) (j : Nat) (s : String)
    (hfind : findFunction d fn = some entry)
    (hj : j < args.length)
    (hpre : ∀ k, k < j → asStr (declaredType entry k) = some (argAt args k).name_as_str)
    (hs : asStr (declaredType entry j) = some s)
    (hne : s ≠ (argAt args j).name_as_str) :
    transaction d fn args = .err (.typeMismatch s (argAt args j).name_as_str) := by
  have hv := validateArgs_mismatch entry args 0 j s hj
    (fun k hk => by simpa using hpre k hk) (by simpa using hs) hne
  simp only [transaction, hfind, hv]

/-- Witness for C8: declared `address, address`, supplied
`Address, U256`; the mismatch at position 1 reports expected `address`,
found `uint256`. -/
theorem encode_type_mismatch_first_witness :
    transaction twoAddrDescription "g" [transferAddress, transferAmount]
      = .err (.typeMismatch "address" "uint256") :=
  encode_type_mismatch_first twoAddrDescription "g" [transferAddress, transferAmount]
    twoAddrEntry 1 "address" rfl (by simp)
    (fun k hk => by
      obtain rfl : k = 0 := by omega
      rfl)
    rfl (by decide)

/-- Core of the malformed-description failure, shared by the claims that
need it: every earlier position validates and the declared type at the
supplied position `j` is not a string. -/
theorem transaction_malformed_core (d : Json) (fn : String) (args : List EthereumTypes)
    (entry : Json) (j : Nat)
    (hfind : findFunction d fn = some entry)
    (hj : j < args.length)
    (hpre : ∀ k, k < j → asStr (declaredType entry k) = some (argAt args k).name_as_str)
    (hnone : asStr (declaredType entry j) = none) :
    transaction d fn args = .err (.malformedDescription (jKey entry "name")) := by
  have hv := validateArgs_malformed entry args 0 j hj
    (fun k hk => by simpa using hpre k hk) (by simpa using hnone)
  simp only [transaction, hfind, hv]

/-- C9: when every earlier position validates and the declared parameter
type at supplied position `j` is missing or not a string, the call fails
with the malformed-description error — a typed return, not a crash, and
a constructor distinct from the mismatch error. -/
theorem encode_malformed_at (d : Json) (fn : String) (args : List EthereumTypes)
    (entry : Json) (j : Nat)
    (hfind : findFunction d fn = some entry)
    (hj : j < args.length)
    (hpre : ∀ k, k < j → asStr (declaredType entry k) = some (argAt args k).name_as_str)
    (hnone : asStr (declaredType entry j) = none) :
    transaction d fn args = .err (.malformedDescription (jKey entry "name")) :=
  transaction_malformed_core d fn args entry j hfind hj hpre hnone

/-- Witness for C9: the second declared parameter's `type` field is the
number 7; the call reports the malformed description. -/
theorem encode_malformed_at_witness :
    transaction badTypeDescription "h" [transferAddress, transferAmount]
      = .err (.malformedDescription (Json.str "h")) :=
  encode_malformed_at badTypeDescription "h" [transferAddress, transferAmount]
    badTypeEntry 1 rfl (by simp)
    (fun k hk => by
      obtain rfl : k = 0 := by omega
      rfl)
    rfl

/-! ## C3: arguments beyond the declared parameter count -/

/-- Counterexample to C3: one declared `address` parameter, two supplied
arguments whose declared positions all validate; the encoder does not
proceed — reading the declared type of the extra position yields JSON
null, and the call fails with the malformed-description error. -/
theorem extra_args_rejected_cex :
    transaction oneParamDescription "f" [transferAddress, transferAmount]
      = .err (.malformedDescription (Json.str "f")) := by rfl

/-- C3 (amended): when the supplied arguments outnumber the declared
parameters and every declared position validates, the call fails at the
first extra position with the malformed-description error (the declared
type read there is JSON null, which is not a string); extra arguments
are not trusted. -/
theorem extra_args_malformed (d : Json) (fn : String) (args : List EthereumTypes)
    (entry : Json) (ts : List Json)
    (hfind : findFunction d fn = some entry)
    (hinputs : jKey entry "inputs" = Json.arr ts)
    (hlen : ts.length < args.length)
    (hok : ∀ k, k < ts.length → asStr (declaredType entry k) = some (argAt args k).name_as_str) :
    transaction d fn args = .err (.malformedDescription (jKey entry "name")) := by
  apply transaction_malformed_core d fn args entry ts.length hfind hlen hok
  unfold declaredType
  rw [hinputs]
  simp [jIndex, jKey, asStr, List.getD_eq_default]

/-- Witness for the amended C3: one declared `address` parameter, three
supplied arguments with position 0 valid. -/
theorem extra_args_malformed_witness :
    transaction oneParamDescription "f" [transferAddress, transferAmount, transferAddress]
      = .err (.malformedDescription (jKey oneParamEntry "name")) :=
  extra_args_malformed oneParamDescription "f"
    [transferAddress, transferAmount, transferAddress]
    oneParamEntry [Json.obj [("type", Json.str "address")]]
    rfl rfl (by simp)
    (fun k hk => by
      simp only [List.length_cons, List.length_nil] at hk
      obtain rfl : k = 0 := by omega
      rfl)

/-! ## C7 and C10: lookup -/

/-- A value that compares equal to a string is that string. -/
theorem jsonEqStr_eq_str (v : Json) (s : String) (h : jsonEqStr v s = true) :
    v = Json.str s := by
  cases v <;> simp_all [jsonEqStr]

/-- On an element list without nulls, the scan-until-null lookup is the
plain first-match search. -/
theorem findEntry_eq_find? (d : List Json) (fn : String) (hnn : Json.null ∉ d) :
    findEntry d fn = d.find? fun e => jsonEqStr (jKey e "name") fn := by
  induction d with
  | nil => rfl
  | cons e rest ih =>
      have he : e.isNull = false := by
        cases e
        · exact absurd (List.mem_cons_self _ rest) hnn
        all_goals rfl
      have hnn2 : Json.null ∉ rest := fun h => hnn (List.mem_cons_of_mem e h)
      simp only [findEntry, he, Bool.false_eq_true, if_false, List.find?_cons]
      cases hp : jsonEqStr (jKey e "name") fn
      · simpa [hp] using ih hnn2
      · simp [hp]

/-- The validation loop never produces the function-not-found error: its
error sites are the mismatch and the malformed description only. -/
theorem validateArgs_ne_functionNotFound (entry : Json) :
    ∀ (args : List EthereumTypes) (j : Nat) (s : String),
      validateArgs entry j args ≠ .error (.functionNotFound s) := by
  intro args
  induction args with
  | nil =>
      intro j s h
      exact Except.noConfusion h
  | cons a rest ih =>
      intro j s h
      simp only [validateArgs] at h
      cases hd : asStr (declaredType entry j) with
      | none =>
          rw [hd] at h
          simp only at h
          exact EncodeError.noConfusion (Except.error.inj h)
      | some t =>
          rw [hd] at h
          simp only at h
          by_cases ht : t ≠ a.name_as_str
          · rw [if_pos ht] at h
            exact EncodeError.noConfusion (Except.error.inj h)
          · rw [if_neg ht] at h
            cases hr : validateArgs entry (j + 1) rest with
            | error e =>
                rw [hr] at h
                simp only at h
                have : e = .functionNotFound s := Except.error.inj h
                exact ih (j + 1) s (this ▸ hr)
            | ok tl =>
                rw [hr] at h
                exact Except.noConfusion h

/-- A found entry makes the function-not-found outcome impossible. -/
theorem transaction_found_ne_fnf (d : Json) (fn : String) (args : List EthereumTypes)
    (entry : Json) (hfind : findFunction d fn = some entry) :
    transaction d fn args ≠ .err (.functionNotFound fn) := by
  intro h
  simp only [transaction, hfind] at h
  cases hv : validateArgs entry 0 args with
  | error e =>
      rw [hv] at h
      simp only at h
      have he : e = .functionNotFound fn := RResult.err.inj h
      exact validateArgs_ne_functionNotFound entry args 0 fn (he ▸ hv)
  | ok inputs =>
      rw [hv] at h
      simp only at h
      cases hn : asStr (jKey entry "name") with
      | none =>
          rw [hn] at h
          exact RResult.noConfusion h
      | some n =>
          rw [hn] at h
          exact RResult.noConfusion h

/-- C7: over a description array without null elements, the call fails
with the function-not-found error exactly when no entry's `name` field
equals the requested name, and the entry used is the first match in
description order. -/
theorem lookup_first_match (d : List Json) (fn : String) (args : List EthereumTypes)
    (hnn : Json.null ∉ d) :
    (transaction (Json.arr d) fn args = .err (.functionNotFound fn)
        ↔ ∀ e ∈ d, jsonEqStr (jKey e "name") fn = false) ∧
    findFunction (Json.arr d) fn = d.find? fun e => jsonEqStr (jKey e "name") fn := by
  have hff : findFunction (Json.arr d) fn = d.find? fun e => jsonEqStr (jKey e "name") fn :=
    findEntry_eq_find? d fn hnn
  refine ⟨⟨fun h => ?_, fun h => ?_⟩, hff⟩
  · cases hfind : findFunction (Json.arr d) fn with
    | none =>
        rw [hff, List.find?_eq_none] at hfind
        intro e he
        exact Bool.not_eq_true _ ▸ (by simpa using hfind e he)
    | some entry =>
        exact absurd h (transaction_found_ne_fnf (Json.arr d) fn args entry hfind)
  · have hnone : findFunction (Json.arr d) fn = none := by
      rw [hff, List.find?_eq_none]
      intro e he
      simp [h e he]
    simp [transaction, hnone]

/-- Witness for C7 on a description holding two entries named `g`. -/
theorem lookup_first_match_witness :
    (transaction (Json.arr duplicateEntries) "g" [] = .err (.functionNotFound "g")
        ↔ ∀ e ∈ duplicateEntries, jsonEqStr (jKey e "name") "g" = false) ∧
    findFunction (Json.arr duplicateEntries) "g"
      = duplicateEntries.find? fun e => jsonEqStr (jKey e "name") "g" :=
  lookup_first_match duplicateEntries "g" [] (by simp [duplicateEntries])

/-- A successful scan found its entry through the string comparison
`functions[i]["name"] == function_name`, so that entry's name field is
the requested string. -/
theorem findEntry_name_str (l : List Json) (fn : String) (entry : Json)
    (h : findEntry l fn = some entry) : jKey entry "name" = Json.str fn := by
  induction l with
  | nil => exact Option.noConfusion h
  | cons e rest ih =>
      simp only [findEntry] at h
      by_cases h0 : e.isNull = true
      · rw [if_pos h0] at h
        exact Option.noConfusion h
      · rw [if_neg h0] at h
        by_cases h1 : jsonEqStr (jKey e "name") fn = true
        · rw [if_pos h1] at h
          have he : e = entry := Option.some.inj h
          rw [← he]
          exact jsonEqStr_eq_str _ fn h1
        · rw [if_neg h1] at h
          exact ih h

/-- C10: whenever the lookup succeeds, the matched entry's name field is
the requested string, so the `unwrap` in the signature construction
cannot fail: the pipeline never reaches the panic outcome. -/
theorem found_name_is_string (d : Json) (fn : String) (args : List EthereumTypes)
    (entry : Json) (hfind : findFunction d fn = some entry) :
    jKey entry "name" = Json.str fn ∧ transaction d fn args ≠ RResult.panicked := by
  have hname : jKey entry "name" = Json.str fn := by
    cases d with
    | arr xs => exact findEntry_name_str xs fn entry hfind
    | null => exact Option.noConfusion hfind
    | bool b => exact Option.noConfusion hfind
    | num n => exact Option.noConfusion hfind
    | str s => exact Option.noConfusion hfind
    | obj fields => exact Option.noConfusion hfind
  refine ⟨hname, fun h => ?_⟩
  simp only [transaction, hfind] at h
  cases hv : validateArgs entry 0 args with
  | error e =>
      rw [hv] at h
      exact RResult.noConfusion h
  | ok inputs =>
      rw [hv] at h
      simp only [hname, asStr] at h
      exact RResult.noConfusion h

/-- Witness for C10 at a one-entry description. -/
theorem found_name_is_string_witness :
    jKey oneParamEntry "name" = Json.str "f" ∧
    transaction oneParamDescription "f" [transferAddress] ≠ RResult.panicked :=
  found_name_is_string oneParamDescription "f" [transferAddress] oneParamEntry rfl

/-! ## C6: output shape on success -/

/-- The squeeze of the sponge always emits exactly 32 bytes. -/
theorem keccak256_length (msg : List Nat) : (keccak256 msg).length = 32 := by
  simp [keccak256, laneToBytes, List.range_succ]

/-- A well-formed value's word is 32 bytes long: an address is written
into a fresh 32-byte array, a `U256` is its stored 32 bytes. -/
theorem value_word_length (a : EthereumTypes) (h : wfValue a) :
    a.value_as_u256.length = 32 := by
  cases a with
  | Address val => simp [EthereumTypes.value_as_u256]
  | U256 val => exact h

/-- The packed words of well-formed arguments occupy 32 bytes each. -/
theorem words_length (args : List EthereumTypes) (hwf : ∀ a ∈ args, wfValue a) :
    ((args.map EthereumTypes.value_as_u256).flatten).length = 32 * args.length := by
  induction args with
  | nil => rfl
  | cons a rest ih =>
      simp only [List.map_cons, List.flatten_cons, List.length_append, List.length_cons]
      rw [value_word_length a (hwf a (by simp)), ih fun b hb => hwf b (by simp [hb])]
      ring

/-- Whatever succeeds came out of the final stage: a 4-byte prefix of a
Keccak-256 digest followed by the argument words in supplied order. -/
theorem transaction_ok_shape (d : Json) (fn : String) (args : List EthereumTypes)
    (out : List Nat) (hok : transaction d fn args = RResult.ok out) :
    ∃ sig, out = (keccak256 (strBytes sig)).take 4
      ++ (args.map EthereumTypes.value_as_u256).flatten := by
  cases hfind : findFunction d fn with
  | none =>
      simp only [transaction, hfind] at hok
      exact RResult.noConfusion hok
  | some entry =>
      simp only [transaction, hfind] at hok
      cases hv : validateArgs entry 0 args with
      | error e =>
          rw [hv] at hok
          exact RResult.noConfusion hok
      | ok inputs =>
          rw [hv] at hok
          cases hn : asStr (jKey entry "name") with
          | none =>
              rw [hn] at hok
              exact RResult.noConfusion hok
          | some n =>
              rw [hn] at hok
              exact ⟨buildSignature n inputs, (RResult.ok.inj hok).symm⟩

/-- C6: a successful call returns the 4 selector bytes followed by one
32-byte word per argument in the supplied order, hence exactly
`4 + 32 * len(arguments)` bytes. -/
theorem encode_output_shape (d : Json) (fn : String) (args : List EthereumTypes)
    (out : List Nat)
    (hwf : ∀ a ∈ args, wfValue a)
    (hok : transaction d fn args = RResult.ok out) :
    out.length = 4 + 32 * args.length ∧
    out.drop 4 = (args.map EthereumTypes.value_as_u256).flatten := by
  obtain ⟨sig, rfl⟩ := transaction_ok_shape d fn args out hok
  have h4 : ((keccak256 (strBytes sig)).take 4).length = 4 := by
    simp [List.length_take, keccak256_length]
  constructor
  · rw [List.length_append, h4, words_length args hwf]
  · rw [List.drop_left' h4]

set_option maxRecDepth 10000 in
/-- Witness for C6: the zero-argument call of the C2 scenario returns
4 + 0 bytes whose tail past the selector is empty. -/
theorem encode_output_shape_witness :
    ([0x0e, 0x15, 0x96, 0xe4] : List Nat).length
        = 4 + 32 * ([] : List EthereumTypes).length ∧
    ([0x0e, 0x15, 0x96, 0xe4] : List Nat).drop 4
        = (([] : List EthereumTypes).map EthereumTypes.value_as_u256).flatten :=
  encode_output_shape zeroArgDescription "f" [] [0x0e, 0x15, 0x96, 0xe4]
    (fun a ha => absurd ha (List.not_mem_nil a)) (by rfl)

/-! ## C1: the transfer scenario, end to end -/

set_option maxRecDepth 10000 in
/-- C1: encoding `transfer` with the address and the amount 20000000000
against a description declaring `transfer(address,uint256)` succeeds and
returns exactly the expected 68 calldata bytes. -/
theorem transfer_call_encodes :
    transaction transferDescription "transfer" [transferAddress, transferAmount]
      = RResult.ok transferCalldata := by rfl

/-! ## C2: the hashed signature string -/

set_option maxRecDepth 10000 in
/-- C2 as the code behaves: with no arguments the signature construction
pops the opening parenthesis rather than a trailing comma, so a
zero-argument call hashes `f)` — not the canonical `f()` the claim
states. -/
theorem empty_args_signature_bug :
    buildSignature "f" [] = "f)" ∧ ("f)" : String) ≠ "f()" ∧
    transaction zeroArgDescription "f" []
      = RResult.ok ((keccak256 (strBytes "f)")).take 4) :=
  ⟨rfl, by decide, by rfl⟩

end ZgenAbi
